import Mathlib

/-!
Verification of `django-transaction-utils`: a shallow embedding of
`transactionutils/transaction.py` and `transactionutils/resources.py`.

The Django transaction module is modelled as an explicit per-alias connection
state (`ConnState`) together with a trace of engine operations (`Ev`).  The
repository's `_Transaction`, `_TransactionWrapper` and `xact` are translated
directly; Python object identity of `_Transaction` instances is made explicit
through an allocation counter (`scopeId`), and the possibility that
`commit` / `savepoint_commit` raise is an oracle (`Env`).
-/

namespace TransactionUtils

/-- Exceptions are identified by their message. -/
abbrev Exc := String

/-- Engine-level operations issued against the connection, in order. -/
inductive Ev where
  | savepoint (sid : Nat)
  | enterTM
  | managedOn
  | commit
  | rollback
  | savepointCommit (sid : Nat)
  | savepointRollback (sid : Nat)
  | leaveTM
  | setIsolationAutocommit
  | atomicEnter
  | atomicCommit
  | atomicRollback
  deriving DecidableEq, Repr

def Ev.isCommit : Ev → Bool
  | .commit => true
  | _ => false

def Ev.isSavepointCommit : Ev → Bool
  | .savepointCommit _ => true
  | _ => false

def Ev.isReleaseOrCommit (e : Ev) : Bool := e.isCommit || e.isSavepointCommit

def Ev.isLeaveTM : Ev → Bool
  | .leaveTM => true
  | _ => false

def Ev.isAtomicEnter : Ev → Bool
  | .atomicEnter => true
  | _ => false

/-- State of the one connection named by the alias in play.  `tmStack` models
Django's transaction-management stack: one `Bool` (the managed flag) per
`enter_transaction_management` not yet left; `is_managed` reads the top.
`nextSid` generates fresh savepoint identifiers.  `usesAutocommit` is the
backend feature flag `features.uses_autocommit`; `isolationAutocommit` records
whether the psycopg2 isolation level is currently autocommit. -/
structure ConnState where
  tmStack : List Bool
  nextSid : Nat
  usesAutocommit : Bool
  isolationAutocommit : Bool
  deriving DecidableEq, Repr

/-- Django `transaction.is_managed(using)`: top of the management stack,
`False` when the stack is empty. -/
def ConnState.is_managed (s : ConnState) : Bool := s.tmStack.headD false

/-- Django `transaction.enter_transaction_management(using=...)`: pushes a copy
of the current top entry (the surrounding managed flag, default `False`). -/
def ConnState.enter_transaction_management (s : ConnState) : ConnState :=
  { s with tmStack := s.tmStack.headD false :: s.tmStack }

/-- Django `transaction.managed(flag, using=...)`: sets the top entry. -/
def ConnState.managed (s : ConnState) (flag : Bool) : ConnState :=
  match s.tmStack with
  | [] => s
  | _ :: rest => { s with tmStack := flag :: rest }

/-- Django `transaction.leave_transaction_management(using=...)`: pops the top
entry.  (Django raises on an empty stack; every use below is guarded by a
matching prior enter, stated as a nonempty-stack hypothesis.) -/
def ConnState.leave_transaction_management (s : ConnState) : ConnState :=
  { s with tmStack := s.tmStack.tail }

/-- Django `transaction.savepoint(using)`: returns a fresh savepoint id. -/
def ConnState.savepoint (s : ConnState) : Nat × ConnState :=
  (s.nextSid, { s with nextSid := s.nextSid + 1 })

/-- Oracle for which commit operations fail: `commitFail = some e` means
`transaction.commit` raises `e`; `spCommitFail sid = some e` means
`transaction.savepoint_commit(sid)` raises `e`. -/
structure Env where
  commitFail : Option Exc
  spCommitFail : Nat → Option Exc

/-- The environment in which every commit succeeds. -/
def envOk : Env := ⟨none, fun _ => none⟩

/-- `_Transaction`: `using` and `sid` are the source's attributes; `scopeId`
makes Python object identity explicit (each `_Transaction(...)` construction
draws a fresh id from an allocation counter). -/
structure Transaction where
  using_ : String
  sid : Option Nat
  scopeId : Nat
  deriving DecidableEq, Repr

/-- `_Transaction.__init__(self, using)`: `self.using = using; self.sid = None`,
threaded through the allocation counter for identity. -/
def mkTransaction (using_ : String) (alloc : Nat) : Transaction × Nat :=
  ({ using_ := using_, sid := none, scopeId := alloc }, alloc + 1)

/-- `_Transaction.__enter__`: if a transaction is already managed, create a
savepoint and record its id in `sid`; otherwise enter transaction management
and mark the connection managed. -/
def Transaction.enter (t : Transaction) (s : ConnState) :
    Transaction × ConnState × List Ev :=
  if s.is_managed then
    let (sid, s') := s.savepoint
    ({ t with sid := some sid }, s', [Ev.savepoint sid])
  else
    (t, (s.enter_transaction_management).managed true, [Ev.enterTM, Ev.managedOn])

/-- `_Transaction._leave_transaction_management`: leave management, then if the
connection is no longer managed and the backend uses autocommit, force the
isolation level back to `ISOLATION_LEVEL_AUTOCOMMIT`. -/
def Transaction.leave_transaction_management (s : ConnState) : ConnState × List Ev :=
  let s1 := s.leave_transaction_management
  if !s1.is_managed && s1.usesAutocommit then
    ({ s1 with isolationAutocommit := true }, [Ev.leaveTM, Ev.setIsolationAutocommit])
  else
    (s1, [Ev.leaveTM])

/-- Result of `__exit__`: either it returned the suppress flag, or it itself
raised an exception (the re-raised commit failure). -/
inductive ExitRes where
  | ret (suppress : Bool)
  | raised (e : Exc)
  deriving DecidableEq, Repr

/-- `_Transaction.__exit__(exc_type, exc_value, traceback)`.  `excValue` is the
exception propagating out of the protected block (`none` when it exited
normally).  Returns the exit result, the connection state, and the trace of
engine operations issued, in order. -/
def Transaction.exit (t : Transaction) (excValue : Option Exc) (env : Env)
    (s : ConnState) : ExitRes × ConnState × List Ev :=
  match excValue with
  | none =>
    match t.sid with
    | none =>
      -- outer transaction: try commit / except rollback+raise / finally leave
      match env.commitFail with
      | none =>
        let (s1, evs) := Transaction.leave_transaction_management s
        (ExitRes.ret false, s1, Ev.commit :: evs)
      | some e =>
        let (s1, evs) := Transaction.leave_transaction_management s
        (ExitRes.raised e, s1, Ev.commit :: Ev.rollback :: evs)
    | some sid =>
      -- inner savepoint: try savepoint_commit / except savepoint_rollback+raise
      match env.spCommitFail sid with
      | none => (ExitRes.ret false, s, [Ev.savepointCommit sid])
      | some e => (ExitRes.raised e, s, [Ev.savepointCommit sid, Ev.savepointRollback sid])
  | some _ =>
    match t.sid with
    | none =>
      let (s1, evs) := Transaction.leave_transaction_management s
      (ExitRes.ret false, s1, Ev.rollback :: evs)
    | some sid => (ExitRes.ret false, s, [Ev.savepointRollback sid])

/-- A computation against the connection: result-or-exception, next state,
trace of engine operations. -/
abbrev Comp (β : Type) := ConnState → Except Exc β × ConnState × List Ev

/-- Python `with _Transaction(alias): body` as a statement (the body's value is
discarded).  The context manager calls `__enter__`, runs the body, and calls
`__exit__` with the body's exception state; a falsy return from `__exit__`
lets the body's exception continue, and an exception from `__exit__` itself
replaces it. -/
def withTransactionStmt (using_ : String) (env : Env) (body : Comp Unit) :
    Comp Unit := fun s =>
  let t0 : Transaction := { using_ := using_, sid := none, scopeId := 0 }
  let (t1, s1, e1) := t0.enter s
  match body s1 with
  | (Except.ok _, s2, e2) =>
    match t1.exit none env s2 with
    | (ExitRes.ret _, s3, e3) => (Except.ok (), s3, e1 ++ e2 ++ e3)
    | (ExitRes.raised e, s3, e3) => (Except.error e, s3, e1 ++ e2 ++ e3)
  | (Except.error e, s2, e2) =>
    match t1.exit (some e) env s2 with
    | (ExitRes.ret suppress, s3, e3) =>
      if suppress then (Except.ok (), s3, e1 ++ e2 ++ e3)
      else (Except.error e, s3, e1 ++ e2 ++ e3)
    | (ExitRes.raised e4, s3, e3) => (Except.error e4, s3, e1 ++ e2 ++ e3)

/-- Python `with t: return body` inside a function, keeping the body's value.
If the exception were suppressed the function would fall through and return
`None`, modelled as `Except.ok none`. -/
def withTransactionVal (t0 : Transaction) (env : Env) (body : Comp β)
    (s : ConnState) : Except Exc (Option β) × ConnState × List Ev :=
  let (t1, s1, e1) := t0.enter s
  match body s1 with
  | (Except.ok b, s2, e2) =>
    match t1.exit none env s2 with
    | (ExitRes.ret _, s3, e3) => (Except.ok (some b), s3, e1 ++ e2 ++ e3)
    | (ExitRes.raised e, s3, e3) => (Except.error e, s3, e1 ++ e2 ++ e3)
  | (Except.error e, s2, e2) =>
    match t1.exit (some e) env s2 with
    | (ExitRes.ret suppress, s3, e3) =>
      if suppress then (Except.ok none, s3, e1 ++ e2 ++ e3)
      else (Except.error e, s3, e1 ++ e2 ++ e3)
    | (ExitRes.raised e4, s3, e3) => (Except.error e4, s3, e1 ++ e2 ++ e3)

/-- A Python function: its `__name__` metadata and its behaviour, taking the
whole `*args, **kwargs` tuple as one value of type `α`. -/
structure PyFunc (α β : Type) where
  name : String
  run : α → Comp β

/-- `_TransactionWrapper`: `self.using` and the lazily-bound
`self.transaction` (set on first `__enter__` in context-manager use). -/
structure TransactionWrapper where
  using_ : String
  transaction : Option Transaction
  deriving DecidableEq, Repr

/-- `_TransactionWrapper.__enter__`: create `self.transaction` only if it is
`None`, then delegate to its `__enter__`.  The updated delegate (its `sid`
assignment mutates the shared object) stays stored on the wrapper. -/
def TransactionWrapper.enter (w : TransactionWrapper) (alloc : Nat)
    (s : ConnState) : TransactionWrapper × Nat × ConnState × List Ev :=
  match w.transaction with
  | none =>
    let (t, alloc') := mkTransaction w.using_ alloc
    let (t', s', evs) := t.enter s
    ({ w with transaction := some t' }, alloc', s', evs)
  | some t =>
    let (t', s', evs) := t.enter s
    ({ w with transaction := some t' }, alloc, s', evs)

/-- `_TransactionWrapper.__exit__`: delegate to `self.transaction.__exit__`.
With `self.transaction` still `None` Python raises an `AttributeError`. -/
def TransactionWrapper.exit (w : TransactionWrapper) (excValue : Option Exc)
    (env : Env) (s : ConnState) : ExitRes × ConnState × List Ev :=
  match w.transaction with
  | some t => t.exit excValue env s
  | none => (ExitRes.raised "AttributeError", s, [])

/-- Outcome of running the decorated function once. -/
structure CallOut (β : Type) where
  result : Except Exc (Option β)
  scopeUsed : Transaction
  alloc : Nat
  state : ConnState
  trace : List Ev
  deriving Repr

/-- The function produced by `_TransactionWrapper.__call__`: `@wraps(func)`
copies the metadata, and each invocation runs
`with _Transaction(self.using): return func(*args, **kwargs)`. -/
structure Wrapped (α β : Type) where
  name : String
  run : α → Env → Nat → ConnState → CallOut β

/-- `_TransactionWrapper.__call__(func)`. -/
def TransactionWrapper.call (w : TransactionWrapper) (f : PyFunc α β) :
    Wrapped α β where
  name := f.name
  run := fun a env alloc s =>
    let (t, alloc') := mkTransaction w.using_ alloc
    let (r, s', tr) := withTransactionVal t env (f.run a) s
    { result := r, scopeUsed := t, alloc := alloc', state := s', trace := tr }

/-- Django's `DEFAULT_DB_ALIAS`. -/
def DEFAULT_DB_ALIAS : String := "default"

/-- The argument of `xact`: omitted (`using=None`), a database alias, or —
bare-decorator shape — the function being decorated itself. -/
inductive XactArg (α β : Type) where
  | noneArg
  | alias_ (a : String)
  | fn (f : PyFunc α β)

/-- What `xact` returns: a factory (`_TransactionWrapper`), or — in the bare
decorator shape — the already-wrapped function. -/
inductive XactResult (α β : Type) where
  | factory (w : TransactionWrapper)
  | wrappedFn (g : Wrapped α β)

/-- `xact(using=None)`: default the alias, then either wrap the callable with
a default-alias `_TransactionWrapper` or return the `_TransactionWrapper`. -/
def xact (u : XactArg α β) : XactResult α β :=
  match u with
  | XactArg.noneArg => XactResult.factory { using_ := DEFAULT_DB_ALIAS, transaction := none }
  | XactArg.alias_ a => XactResult.factory { using_ := a, transaction := none }
  | XactArg.fn f =>
      XactResult.wrappedFn
        ((TransactionWrapper.mk DEFAULT_DB_ALIAS none).call f)

/-! ### `resources.py` -/

/-- A correctly entered Django atomic block (external collaborator, as
tastypie's `ModelResource` uses internally): begin an atomic block, commit on
normal exit, roll back and re-raise on exception. -/
def atomicWrap (body : Comp β) : Comp β := fun s =>
  match body s with
  | (Except.ok b, s', evs) => (Except.ok b, s', Ev.atomicEnter :: evs ++ [Ev.atomicCommit])
  | (Except.error e, s', evs) => (Except.error e, s', Ev.atomicEnter :: evs ++ [Ev.atomicRollback])

/-- The source's `with transaction.atomic:` — `transaction.atomic` is a plain
module-level *function* in every Django version providing it (it must be
called, `transaction.atomic()`, to produce the `Atomic` context manager).
Entering the uncalled function object raises `AttributeError` looking up
`__enter__`, before the body runs: no engine operation is issued. -/
def withAtomicUncalled (_body : Comp β) : Comp β := fun s =>
  (Except.error "AttributeError: function object has no attribute __enter__", s, [])

/-- The read-only HTTP methods from
`('GET', 'HEAD', 'OPTIONS', 'TRACE')` in `TransactionModelResource.dispatch`. -/
def readOnlyMethods : List String := ["GET", "HEAD", "OPTIONS", "TRACE"]

namespace TransactionModelResource

/-- `TransactionModelResource.dispatch`: for a method outside the read-only
tuple, execute the super-dispatch under `with transaction.atomic:` (the
uncalled function, see `withAtomicUncalled`); otherwise call the
super-dispatch untouched.  `superDispatch` is tastypie's
`ModelResource.dispatch` bound to this request (external collaborator). -/
def dispatch (method : String) (superDispatch : Comp β) : Comp β := fun s =>
  if method ∉ readOnlyMethods then withAtomicUncalled superDispatch s
  else superDispatch s

end TransactionModelResource

/-- Tastypie's base `Resource.patch_list` (external collaborator): the plain
handler body, no transaction management of its own. -/
def Resource.patch_list (body : Comp β) : Comp β := body

/-- Tastypie's `ModelResource.patch_list` (external collaborator): per the
source's own comment, "ModelResource does transaction management on this", so
it wraps the base handler in a transaction. -/
def ModelResource.patch_list (body : Comp β) : Comp β := atomicWrap body

/-- `TransactionModelResource.patch_list`: calls
`super(ModelResource, self).patch_list`, i.e. the base `Resource` version,
bypassing `ModelResource`'s own transaction management. -/
def TransactionModelResource.patch_list (body : Comp β) : Comp β :=
  Resource.patch_list body

/-- Outcome of one complete guard cycle (`with wrapper: body`). -/
structure GuardOut where
  wrapper : TransactionWrapper
  scopeUsed : Transaction
  alloc : Nat
  result : Except Exc Unit
  state : ConnState
  trace : List Ev
  deriving Repr

/-- One complete `with wrapper: body` guard cycle: `__enter__` on the wrapper,
the body, then `__exit__` on the wrapper with the body's error state.
`scopeUsed` observes which `_Transaction` object this cycle operated on. -/
def guardCycle (w : TransactionWrapper) (env : Env) (body : Comp Unit)
    (alloc : Nat) (s : ConnState) : GuardOut :=
  let (w1, alloc1, s1, e1) := w.enter alloc s
  let scope := w1.transaction.getD (Transaction.mk w.using_ none 0)
  match body s1 with
  | (Except.ok _, s2, e2) =>
    match w1.exit none env s2 with
    | (ExitRes.ret _, s3, e3) =>
        ⟨w1, scope, alloc1, Except.ok (), s3, e1 ++ e2 ++ e3⟩
    | (ExitRes.raised e, s3, e3) =>
        ⟨w1, scope, alloc1, Except.error e, s3, e1 ++ e2 ++ e3⟩
  | (Except.error e, s2, e2) =>
    match w1.exit (some e) env s2 with
    | (ExitRes.ret suppress, s3, e3) =>
        if suppress then ⟨w1, scope, alloc1, Except.ok (), s3, e1 ++ e2 ++ e3⟩
        else ⟨w1, scope, alloc1, Except.error e, s3, e1 ++ e2 ++ e3⟩
    | (ExitRes.raised e4, s3, e3) =>
        ⟨w1, scope, alloc1, Except.error e4, s3, e1 ++ e2 ++ e3⟩

/-- `n` nested `with xact(alias):` blocks around a trivial body, all on the
same alias. -/
def nested (using_ : String) (env : Env) : Nat → Comp Unit
  | 0 => fun s => (Except.ok (), s, [])
  | n + 1 => withTransactionStmt using_ env (nested using_ env n)

/-- Savepoint create/release trace of `m` error-free nested savepoint levels
whose first (outermost) savepoint id is `k`. -/
def spTrace (k : Nat) : Nat → List Ev
  | 0 => []
  | m + 1 => Ev.savepoint k :: (spTrace (k + 1) m ++ [Ev.savepointCommit k])

/-- Savepoint releases in innermost-to-outermost order: ids `k + m - 1` down
to `k`. -/
def releaseOrder (k : Nat) : Nat → List Ev
  | 0 => []
  | m + 1 => Ev.savepointCommit (k + m) :: releaseOrder k m

/-! ### Helper lemmas -/

theorem roc_savepoint (k : Nat) :
    Ev.isReleaseOrCommit (Ev.savepoint k) = false := rfl

theorem roc_spCommit (k : Nat) :
    Ev.isReleaseOrCommit (Ev.savepointCommit k) = true := rfl

theorem roc_enterTM : Ev.isReleaseOrCommit Ev.enterTM = false := rfl

theorem roc_managedOn : Ev.isReleaseOrCommit Ev.managedOn = false := rfl

theorem roc_commit : Ev.isReleaseOrCommit Ev.commit = true := rfl

theorem isCommit_savepoint (k : Nat) : Ev.isCommit (Ev.savepoint k) = false := rfl

theorem isCommit_spCommit (k : Nat) :
    Ev.isCommit (Ev.savepointCommit k) = false := rfl

theorem isCommit_enterTM : Ev.isCommit Ev.enterTM = false := rfl

theorem isCommit_managedOn : Ev.isCommit Ev.managedOn = false := rfl

theorem isCommit_commit : Ev.isCommit Ev.commit = true := rfl

theorem isSpc_savepoint (k : Nat) :
    Ev.isSavepointCommit (Ev.savepoint k) = false := rfl

theorem isSpc_spCommit (k : Nat) :
    Ev.isSavepointCommit (Ev.savepointCommit k) = true := rfl

theorem isSpc_enterTM : Ev.isSavepointCommit Ev.enterTM = false := rfl

theorem isSpc_managedOn : Ev.isSavepointCommit Ev.managedOn = false := rfl

theorem isSpc_commit : Ev.isSavepointCommit Ev.commit = false := rfl

/-- The `_leave_transaction_management` helper issues exactly one
`leave_transaction_management` call. -/
theorem leave_trace_countP (s : ConnState) :
    ((Transaction.leave_transaction_management s).2).countP Ev.isLeaveTM = 1 := by
  simp only [Transaction.leave_transaction_management]
  split <;> rfl

/-- `__exit__` yields either the `False` suppress flag or a re-raised
exception, never `True`. -/
theorem exit_ret_or_raised (t : Transaction) (excValue : Option Exc) (env : Env)
    (s : ConnState) :
    (t.exit excValue env s).1 = ExitRes.ret false ∨
    ∃ e, (t.exit excValue env s).1 = ExitRes.raised e := by
  obtain ⟨u, sid, i⟩ := t
  cases excValue with
  | none =>
    cases sid with
    | none =>
      cases hc : env.commitFail with
      | none => left; simp [Transaction.exit, hc]
      | some e => right; exact ⟨e, by simp [Transaction.exit, hc]⟩
    | some sid =>
      cases hc : env.spCommitFail sid with
      | none => left; simp [Transaction.exit, hc]
      | some e => right; exact ⟨e, by simp [Transaction.exit, hc]⟩
  | some e =>
    cases sid with
    | none => left; simp [Transaction.exit]
    | some sid => left; simp [Transaction.exit]

/-- `__exit__` with an exception propagating from the block never raises and
returns `False`. -/
theorem exit_some_ret_false (t : Transaction) (e : Exc) (env : Env)
    (s : ConnState) :
    ∃ s' tr, t.exit (some e) env s = (ExitRes.ret false, s', tr) := by
  obtain ⟨u, sid, i⟩ := t
  cases sid <;> exact ⟨_, _, rfl⟩

/-! ### C4 -/

/-- C4: `__enter__` on an already-managed alias creates a savepoint and records
its id in `sid`; on an unmanaged alias it enters transaction management and
marks the connection managed, leaving `sid` untouched (so still `None` for a
freshly constructed scope). -/
theorem C4_begin_cases (t : Transaction) (s : ConnState) :
    (s.is_managed = true →
      t.enter s = ({ t with sid := some s.nextSid },
        { s with nextSid := s.nextSid + 1 }, [Ev.savepoint s.nextSid])) ∧
    (s.is_managed = false →
      (t.enter s).1.sid = t.sid ∧
      (t.enter s).2.1 = (s.enter_transaction_management).managed true ∧
      ((t.enter s).2.1).is_managed = true ∧
      (t.enter s).2.2 = [Ev.enterTM, Ev.managedOn] ∧
      (t.sid = none → (t.enter s).1.sid = none)) := by
  constructor
  · intro h
    simp [Transaction.enter, h, ConnState.savepoint]
  · intro h
    have he : t.enter s =
        (t, (s.enter_transaction_management).managed true,
          [Ev.enterTM, Ev.managedOn]) := by
      simp [Transaction.enter, h]
    refine ⟨by rw [he], by rw [he], ?_, by rw [he], fun h0 => by rw [he]; exact h0⟩
    rw [he]
    simp [ConnState.enter_transaction_management, ConnState.managed,
      ConnState.is_managed]

/-- Witness for C4 at concrete inputs (both branches). -/
theorem C4_begin_cases_witness :
    (ConnState.mk [true] 5 true true).is_managed = true ∧
    (Transaction.mk "default" none 0).enter ⟨[true], 5, true, true⟩ =
      (Transaction.mk "default" (some 5) 0, ⟨[true], 6, true, true⟩,
        [Ev.savepoint 5]) ∧
    ((Transaction.mk "default" none 0).enter ⟨[], 0, true, true⟩).1.sid = none :=
  ⟨rfl,
   (C4_begin_cases (Transaction.mk "default" none 0) ⟨[true], 5, true, true⟩).1 rfl,
   ((C4_begin_cases (Transaction.mk "default" none 0)
      ⟨[], 0, true, true⟩).2 rfl).2.2.2.2 rfl⟩

/-! ### C1 -/

/-- C1: on a no-error exit of an outermost scope (`sid = None`), a commit is
attempted; if the commit raises, the transaction is rolled back and the commit
failure is re-raised; and in both cases transaction management is left exactly
once afterwards. -/
theorem C1_outer_commit (t : Transaction) (env : Env) (s : ConnState)
    (hsid : t.sid = none) :
    (env.commitFail = none →
      t.exit none env s =
        (ExitRes.ret false, (Transaction.leave_transaction_management s).1,
          Ev.commit :: (Transaction.leave_transaction_management s).2)) ∧
    (∀ e, env.commitFail = some e →
      t.exit none env s =
        (ExitRes.raised e, (Transaction.leave_transaction_management s).1,
          Ev.commit :: Ev.rollback ::
            (Transaction.leave_transaction_management s).2)) ∧
    Ev.commit ∈ (t.exit none env s).2.2 ∧
    ((t.exit none env s).2.2).countP Ev.isLeaveTM = 1 := by
  refine ⟨?_, ?_, ?_, ?_⟩
  · intro h
    simp [Transaction.exit, hsid, h]
  · intro e h
    simp [Transaction.exit, hsid, h]
  · cases h : env.commitFail <;> simp [Transaction.exit, hsid, h]
  · cases h : env.commitFail <;>
      simp [Transaction.exit, hsid, h, List.countP_cons, leave_trace_countP,
        Ev.isLeaveTM]

/-- Witness for C1 at concrete inputs (commit succeeding and failing). -/
theorem C1_outer_commit_witness :
    (Transaction.mk "default" none 0).sid = none ∧
    (Transaction.mk "default" none 0).exit none envOk ⟨[true], 0, true, true⟩ =
      (ExitRes.ret false, ⟨[], 0, true, true⟩,
        [Ev.commit, Ev.leaveTM, Ev.setIsolationAutocommit]) ∧
    (Transaction.mk "default" none 0).exit none ⟨some "boom", fun _ => none⟩
        ⟨[true], 0, false, false⟩ =
      (ExitRes.raised "boom", ⟨[], 0, false, false⟩,
        [Ev.commit, Ev.rollback, Ev.leaveTM]) := by
  refine ⟨rfl, ?_, ?_⟩
  · exact (C1_outer_commit _ envOk _ rfl).1 rfl
  · exact (C1_outer_commit _ ⟨some "boom", fun _ => none⟩ _ rfl).2.1 "boom" rfl

/-! ### C5 -/

/-- C5: on an exit with an error propagating from the block, an outermost scope
rolls back the whole transaction and then leaves transaction management; a
nested scope only rolls back to its savepoint, leaving the connection state
(hence the outer transaction) untouched — no commit, no full rollback, no
leave of management mode. -/
theorem C5_error_exit (t : Transaction) (e : Exc) (env : Env) (s : ConnState) :
    (t.sid = none →
      t.exit (some e) env s =
        (ExitRes.ret false, (Transaction.leave_transaction_management s).1,
          Ev.rollback :: (Transaction.leave_transaction_management s).2)) ∧
    (∀ sid, t.sid = some sid →
      t.exit (some e) env s = (ExitRes.ret false, s, [Ev.savepointRollback sid])) := by
  constructor
  · intro h
    simp [Transaction.exit, h]
  · intro sid h
    simp [Transaction.exit, h]

/-- Witness for C5 at concrete inputs (outermost and nested). -/
theorem C5_error_exit_witness :
    (Transaction.mk "default" none 0).exit (some "err") envOk
        ⟨[true], 0, false, true⟩ =
      (ExitRes.ret false, ⟨[], 0, false, true⟩, [Ev.rollback, Ev.leaveTM]) ∧
    (Transaction.mk "default" (some 7) 0).exit (some "err") envOk
        ⟨[true, true], 8, true, false⟩ =
      (ExitRes.ret false, ⟨[true, true], 8, true, false⟩,
        [Ev.savepointRollback 7]) :=
  ⟨(C5_error_exit _ "err" envOk _).1 rfl,
   (C5_error_exit _ "err" envOk _).2 7 rfl⟩

/-! ### C6 -/

/-- If the body of `with _Transaction(using):` raises `e`, the whole statement
raises `e`: the error-branch of `__exit__` never raises and never suppresses. -/
theorem withTransactionStmt_propagates (using_ : String) (env : Env)
    (body : Comp Unit) (s : ConnState) (e : Exc)
    (h : (body ((Transaction.mk using_ none 0).enter s).2.1).1 = Except.error e) :
    (withTransactionStmt using_ env body s).1 = Except.error e := by
  unfold withTransactionStmt
  rcases henter : (Transaction.mk using_ none 0).enter s with ⟨t1, s1, e1⟩
  rcases hbody : body s1 with ⟨r, s2, e2⟩
  rw [henter, hbody] at h
  simp only at h
  subst h
  obtain ⟨s', tr, hexit⟩ := exit_some_ret_false t1 e env s2
  simp [henter, hbody, hexit]

/-- C6: `__exit__` never returns the suppress signal `True` — whenever it
returns (rather than re-raising a commit failure) it returns `False` — and so
an exception raised in the protected block propagates to the caller
unchanged. -/
theorem C6_never_suppresses (t : Transaction) (excValue : Option Exc) (env : Env)
    (s : ConnState) :
    (∀ b s' tr, t.exit excValue env s = (ExitRes.ret b, s', tr) → b = false) ∧
    (∀ (using_ : String) (body : Comp Unit) (e : Exc),
      (body ((Transaction.mk using_ none 0).enter s).2.1).1 = Except.error e →
      (withTransactionStmt using_ env body s).1 = Except.error e) := by
  constructor
  · intro b s' tr h
    rcases exit_ret_or_raised t excValue env s with h0 | ⟨e, h0⟩ <;> rw [h] at h0
    · injection h0
    · exact ExitRes.noConfusion h0
  · exact fun u body e h => withTransactionStmt_propagates u env body s e h

/-- Witness for C6 at concrete inputs. -/
theorem C6_never_suppresses_witness :
    (Transaction.mk "default" none 3).exit none envOk ⟨[true], 0, false, true⟩ =
      (ExitRes.ret false, ⟨[], 0, false, true⟩, [Ev.commit, Ev.leaveTM]) ∧
    false = false ∧
    (withTransactionStmt "default" envOk
        (fun s => (Except.error "boom", s, [])) ⟨[], 0, true, true⟩).1 =
      Except.error "boom" := by
  refine ⟨rfl, ?_, ?_⟩
  · exact (C6_never_suppresses (Transaction.mk "default" none 3) none envOk
      ⟨[true], 0, false, true⟩).1 false ⟨[], 0, false, true⟩
      [Ev.commit, Ev.leaveTM] rfl
  · exact (C6_never_suppresses (Transaction.mk "default" none 0) none envOk
      ⟨[], 0, true, true⟩).2 "default" (fun s => (Except.error "boom", s, []))
      "boom" rfl

/-! ### C10 -/

/-- C10: after leaving transaction management, the isolation level is forced
back to autocommit exactly when the connection is no longer managed and the
backend's `uses_autocommit` feature is on; otherwise it is untouched.  A
nested-scope exit (`sid` set) never leaves management and never touches the
isolation level. -/
theorem C10_isolation_restore (s : ConnState) :
    (((s.leave_transaction_management).is_managed = false ∧
        s.usesAutocommit = true) →
      Transaction.leave_transaction_management s =
        ({ s.leave_transaction_management with isolationAutocommit := true },
          [Ev.leaveTM, Ev.setIsolationAutocommit])) ∧
    (((s.leave_transaction_management).is_managed = true ∨
        s.usesAutocommit = false) →
      Transaction.leave_transaction_management s =
        (s.leave_transaction_management, [Ev.leaveTM]) ∧
      ((Transaction.leave_transaction_management s).1).isolationAutocommit =
        s.isolationAutocommit) ∧
    (∀ (t : Transaction) (sid : Nat) (excValue : Option Exc) (env : Env),
      t.sid = some sid →
      (t.exit excValue env s).2.1 = s ∧
      Ev.leaveTM ∉ (t.exit excValue env s).2.2 ∧
      Ev.setIsolationAutocommit ∉ (t.exit excValue env s).2.2) := by
  refine ⟨?_, ?_, ?_⟩
  · intro ⟨h1, h2⟩
    have hu : (s.leave_transaction_management).usesAutocommit = s.usesAutocommit := rfl
    unfold Transaction.leave_transaction_management
    simp [h1, hu, h2]
  · intro h
    have hpair : Transaction.leave_transaction_management s =
        (s.leave_transaction_management, [Ev.leaveTM]) := by
      have hu : (s.leave_transaction_management).usesAutocommit =
          s.usesAutocommit := rfl
      unfold Transaction.leave_transaction_management
      rcases h with h | h
      · simp [h]
      · simp [hu, h]
    exact ⟨hpair, by rw [hpair]; rfl⟩
  · intro t sid excValue env h
    cases excValue with
    | none =>
      cases hc : env.spCommitFail sid <;> simp [Transaction.exit, h, hc]
    | some e => simp [Transaction.exit, h]

/-- Witness for C10 at concrete inputs (both helper branches and a nested
exit). -/
theorem C10_isolation_restore_witness :
    Transaction.leave_transaction_management ⟨[true], 0, true, false⟩ =
      (⟨[], 0, true, true⟩, [Ev.leaveTM, Ev.setIsolationAutocommit]) ∧
    Transaction.leave_transaction_management ⟨[true, true], 0, true, false⟩ =
      (⟨[true], 0, true, false⟩, [Ev.leaveTM]) ∧
    ((Transaction.mk "default" (some 2) 0).exit none envOk
        ⟨[true], 5, true, false⟩).2.1 = ⟨[true], 5, true, false⟩ := by
  refine ⟨?_, ?_, ?_⟩
  · exact (C10_isolation_restore ⟨[true], 0, true, false⟩).1 ⟨rfl, rfl⟩
  · exact ((C10_isolation_restore ⟨[true, true], 0, true, false⟩).2.1
      (Or.inl rfl)).1
  · exact ((C10_isolation_restore ⟨[true], 5, true, false⟩).2.2
      (Transaction.mk "default" (some 2) 0) 2 none envOk rfl).1

/-! ### C3 -/

/-- C3 (code bug, evaluated at the failing input): for a mutating method such
as `POST`, `dispatch` reaches `with transaction.atomic:` with the `atomic`
function *uncalled*, so it raises `AttributeError` before the base dispatch
runs — the state is untouched, no engine operation is issued, and the super
dispatch's result and trace never appear — instead of wrapping the dispatch
in a transaction as the claim (and the resource's own docstring) state.  A
read-only method still passes through untouched, and
`TransactionModelResource.patch_list` still bypasses `ModelResource`'s own
transaction management. -/
theorem C3_dispatch_attribute_error :
    TransactionModelResource.dispatch "POST"
        (fun s => (Except.ok (7 : Nat), s, [Ev.commit])) ⟨[], 0, true, true⟩ =
      (Except.error "AttributeError: function object has no attribute __enter__",
        ⟨[], 0, true, true⟩, []) ∧
    TransactionModelResource.dispatch "GET"
        (fun s => (Except.ok (7 : Nat), s, [Ev.commit])) ⟨[], 0, true, true⟩ =
      (Except.ok 7, ⟨[], 0, true, true⟩, [Ev.commit]) ∧
    TransactionModelResource.patch_list
        (fun s => (Except.ok (7 : Nat), s, [Ev.commit])) =
      (fun s => (Except.ok (7 : Nat), s, [Ev.commit])) :=
  ⟨rfl, rfl, rfl⟩

/-! ### C8 -/

/-- C8: `xact` with no argument or an alias returns exactly one
`_TransactionWrapper` (a `None` alias replaced by `DEFAULT_DB_ALIAS`); in the
bare-decorator shape (the argument is the callable itself) the wrapped
function is returned instead of a factory, built by one default-alias
factory immediately applied to the callable, preserving its name. -/
theorem C8_factory_shapes {α β : Type} (a : String) (f : PyFunc α β) :
    xact (XactArg.noneArg : XactArg α β) =
      XactResult.factory { using_ := DEFAULT_DB_ALIAS, transaction := none } ∧
    xact (XactArg.alias_ a : XactArg α β) =
      XactResult.factory { using_ := a, transaction := none } ∧
    xact (XactArg.fn f) =
      XactResult.wrappedFn ((TransactionWrapper.mk DEFAULT_DB_ALIAS none).call f) ∧
    (∀ w, xact (XactArg.fn f) ≠ XactResult.factory w) ∧
    ((TransactionWrapper.mk DEFAULT_DB_ALIAS none).call f).name = f.name := by
  refine ⟨rfl, rfl, rfl, ?_, rfl⟩
  intro w h
  exact XactResult.noConfusion h

/-! ### C9 -/

theorem leave_trace_filter (s : ConnState) :
    ((Transaction.leave_transaction_management s).2).filter Ev.isReleaseOrCommit = [] := by
  simp only [Transaction.leave_transaction_management]
  split <;> rfl

theorem leave_trace_countP_commit (s : ConnState) :
    ((Transaction.leave_transaction_management s).2).countP Ev.isCommit = 0 := by
  simp only [Transaction.leave_transaction_management]
  split <;> rfl

theorem leave_trace_countP_spCommit (s : ConnState) :
    ((Transaction.leave_transaction_management s).2).countP Ev.isSavepointCommit = 0 := by
  simp only [Transaction.leave_transaction_management]
  split <;> rfl

theorem releaseOrder_snoc (k : Nat) (m : Nat) :
    releaseOrder (k + 1) m ++ [Ev.savepointCommit k] = releaseOrder k (m + 1) := by
  induction m with
  | zero => simp [releaseOrder]
  | succ m ih =>
    have harith : k + 1 + m = k + (m + 1) := by omega
    simp only [releaseOrder, List.cons_append, ih, harith]

theorem spTrace_filter (m : Nat) :
    ∀ k, (spTrace k m).filter Ev.isReleaseOrCommit = releaseOrder k m := by
  induction m with
  | zero =>
    intro k
    simp [spTrace, releaseOrder]
  | succ m ih =>
    intro k
    simp only [spTrace, List.filter_cons, List.filter_append, roc_savepoint,
      roc_spCommit, ih (k + 1), Bool.false_eq_true, if_false, if_true]
    exact releaseOrder_snoc k m

theorem spTrace_countP_commit (m : Nat) :
    ∀ k, (spTrace k m).countP Ev.isCommit = 0 := by
  induction m with
  | zero => intro k; simp [spTrace]
  | succ m ih =>
    intro k
    simp [spTrace, List.countP_cons, List.countP_append, ih (k + 1),
      isCommit_savepoint, isCommit_spCommit]

theorem spTrace_countP_spCommit (m : Nat) :
    ∀ k, (spTrace k m).countP Ev.isSavepointCommit = m := by
  induction m with
  | zero => intro k; simp [spTrace]
  | succ m ih =>
    intro k
    simp [spTrace, List.countP_cons, List.countP_append, ih (k + 1),
      isSpc_savepoint, isSpc_spCommit]

/-- Error-free nested scopes entered while a transaction is already managed:
each level creates one savepoint on entry and releases it on exit, innermost
first, leaving the management stack untouched. -/
theorem nested_managed (using_ : String) (m : Nat) :
    ∀ s : ConnState, s.is_managed = true →
      nested using_ envOk m s =
        (Except.ok (), { s with nextSid := s.nextSid + m }, spTrace s.nextSid m) := by
  induction m with
  | zero =>
    intro s hs
    simp [nested, spTrace]
  | succ m ih =>
    intro s hs
    have henter : (Transaction.mk using_ none 0).enter s =
        (Transaction.mk using_ (some s.nextSid) 0,
          { s with nextSid := s.nextSid + 1 }, [Ev.savepoint s.nextSid]) := by
      simp [Transaction.enter, hs, ConnState.savepoint]
    have hmid : ConnState.is_managed { s with nextSid := s.nextSid + 1 } = true := hs
    have hbody := ih { s with nextSid := s.nextSid + 1 } hmid
    have hexit : (Transaction.mk using_ (some s.nextSid) 0).exit none envOk
        { s with nextSid := s.nextSid + 1 + m } =
        (ExitRes.ret false, { s with nextSid := s.nextSid + 1 + m },
          [Ev.savepointCommit s.nextSid]) := by
      simp [Transaction.exit, envOk]
    have harith : s.nextSid + 1 + m = s.nextSid + (m + 1) := by omega
    simp only [nested, withTransactionStmt, henter, hbody, hexit]
    simp [spTrace, harith]

/-- An error-free run of `m + 1` nested scopes started with no transaction
active: enter management, create and release `m` savepoints, commit once,
leave management. -/
theorem nested_unmanaged (using_ : String) (m : Nat) (s0 : ConnState)
    (h0 : s0.is_managed = false) :
    nested using_ envOk (m + 1) s0 =
      (Except.ok (),
        (Transaction.leave_transaction_management
          { s0 with tmStack := true :: s0.tmStack, nextSid := s0.nextSid + m }).1,
        Ev.enterTM :: Ev.managedOn ::
          (spTrace s0.nextSid m ++ Ev.commit ::
            (Transaction.leave_transaction_management
              { s0 with tmStack := true :: s0.tmStack, nextSid := s0.nextSid + m }).2)) := by
  have hS1 : (s0.enter_transaction_management).managed true =
      { s0 with tmStack := true :: s0.tmStack } := by
    simp [ConnState.enter_transaction_management, ConnState.managed]
  have henter : (Transaction.mk using_ none 0).enter s0 =
      (Transaction.mk using_ none 0, { s0 with tmStack := true :: s0.tmStack },
        [Ev.enterTM, Ev.managedOn]) := by
    simp [Transaction.enter, h0, hS1]
  have hmid : ConnState.is_managed { s0 with tmStack := true :: s0.tmStack } = true := rfl
  have hbody := nested_managed using_ m { s0 with tmStack := true :: s0.tmStack } hmid
  rcases hleave : Transaction.leave_transaction_management
      { s0 with tmStack := true :: s0.tmStack, nextSid := s0.nextSid + m } with ⟨sL, evL⟩
  have hexit : (Transaction.mk using_ none 0).exit none envOk
      { s0 with tmStack := true :: s0.tmStack, nextSid := s0.nextSid + m } =
      (ExitRes.ret false, sL, Ev.commit :: evL) := by
    simp [Transaction.exit, envOk, hleave]
  simp only [nested, withTransactionStmt, henter, hbody, hexit, hleave]
  simp

/-- C9: an error-free run of `n ≥ 1` nested scopes on one alias, started with
no transaction active, issues exactly one outer commit and exactly `n - 1`
savepoint releases, and the releases and the commit occur in
innermost-to-outermost exit order (savepoints `n - 2` down to `0` above the
starting id, then the commit). -/
theorem C9_nested_commits (using_ : String) (n : Nat) (hn : 1 ≤ n)
    (s0 : ConnState) (h0 : s0.is_managed = false) :
    (nested using_ envOk n s0).1 = Except.ok () ∧
    ((nested using_ envOk n s0).2.2).filter Ev.isReleaseOrCommit =
      releaseOrder s0.nextSid (n - 1) ++ [Ev.commit] ∧
    ((nested using_ envOk n s0).2.2).countP Ev.isCommit = 1 ∧
    ((nested using_ envOk n s0).2.2).countP Ev.isSavepointCommit = n - 1 := by
  obtain ⟨m, rfl⟩ : ∃ m, n = m + 1 := ⟨n - 1, by omega⟩
  rw [nested_unmanaged using_ m s0 h0]
  refine ⟨rfl, ?_, ?_, ?_⟩ <;>
    simp [List.filter_append, List.filter_cons, List.countP_cons,
      List.countP_append, spTrace_filter, spTrace_countP_commit,
      spTrace_countP_spCommit, leave_trace_filter, leave_trace_countP_commit,
      leave_trace_countP_spCommit, roc_enterTM, roc_managedOn, roc_commit,
      isCommit_enterTM, isCommit_managedOn, isCommit_commit, isSpc_enterTM,
      isSpc_managedOn, isSpc_commit]

/-- Witness for C9 at concrete inputs: three nesting levels. -/
theorem C9_nested_commits_witness :
    1 ≤ 3 ∧ (ConnState.mk [] 0 true true).is_managed = false ∧
    ((nested "default" envOk 3 ⟨[], 0, true, true⟩).2.2).filter
        Ev.isReleaseOrCommit =
      releaseOrder 0 (3 - 1) ++ [Ev.commit] ∧
    ((nested "default" envOk 3 ⟨[], 0, true, true⟩).2.2).countP
        Ev.isSavepointCommit = 3 - 1 :=
  ⟨by decide, rfl,
   (C9_nested_commits "default" 3 (by decide) ⟨[], 0, true, true⟩ rfl).2.1,
   (C9_nested_commits "default" 3 (by decide) ⟨[], 0, true, true⟩ rfl).2.2.2⟩

/-! ### C7 -/

/-- C7: in decorator mode each invocation of the wrapped function allocates a
brand-new scope (`scopeId` = the incoming allocation counter, which advances
by one), begins it on the current state, runs the original function on the
entered state with the original arguments, and ends the scope with the call's
error state; the call's return value is passed back unchanged on success, the
call's exception (or a commit failure) propagates unchanged, and the
original function's name metadata is preserved by `functools.wraps`. -/
theorem C7_decorator {α β : Type} (w : TransactionWrapper) (f : PyFunc α β)
    (a : α) (env : Env) (alloc : Nat) (s : ConnState) :
    ((w.call f).name = f.name) ∧
    (((w.call f).run a env alloc s).scopeUsed =
      { using_ := w.using_, sid := none, scopeId := alloc }) ∧
    (((w.call f).run a env alloc s).alloc = alloc + 1) ∧
    (∀ b s2 e2,
      f.run a ((Transaction.mk w.using_ none alloc).enter s).2.1 =
        (Except.ok b, s2, e2) →
      (∀ r s3 e3,
        ((Transaction.mk w.using_ none alloc).enter s).1.exit none env s2 =
          (ExitRes.ret r, s3, e3) →
        ((w.call f).run a env alloc s).result = Except.ok (some b) ∧
        ((w.call f).run a env alloc s).state = s3 ∧
        ((w.call f).run a env alloc s).trace =
          ((Transaction.mk w.using_ none alloc).enter s).2.2 ++ e2 ++ e3) ∧
      (∀ e s3 e3,
        ((Transaction.mk w.using_ none alloc).enter s).1.exit none env s2 =
          (ExitRes.raised e, s3, e3) →
        ((w.call f).run a env alloc s).result = Except.error e ∧
        ((w.call f).run a env alloc s).state = s3)) ∧
    (∀ e s2 e2,
      f.run a ((Transaction.mk w.using_ none alloc).enter s).2.1 =
        (Except.error e, s2, e2) →
      ((w.call f).run a env alloc s).result = Except.error e ∧
      ((w.call f).run a env alloc s).trace =
        ((Transaction.mk w.using_ none alloc).enter s).2.2 ++ e2 ++
          (((Transaction.mk w.using_ none alloc).enter s).1.exit
            (some e) env s2).2.2) := by
  refine ⟨rfl, rfl, rfl, ?_, ?_⟩
  · intro b s2 e2 hbody
    rcases henter : (Transaction.mk w.using_ none alloc).enter s with ⟨t1, s1, e1⟩
    simp only [henter] at hbody
    constructor
    · intro r s3 e3 hexit
      simp only [henter] at hexit
      refine ⟨?_, ?_, ?_⟩ <;>
        simp [TransactionWrapper.call, mkTransaction, withTransactionVal,
          henter, hbody, hexit]
    · intro e s3 e3 hexit
      simp only [henter] at hexit
      constructor <;>
        simp [TransactionWrapper.call, mkTransaction, withTransactionVal,
          henter, hbody, hexit]
  · intro e s2 e2 hbody
    rcases henter : (Transaction.mk w.using_ none alloc).enter s with ⟨t1, s1, e1⟩
    simp only [henter] at hbody
    obtain ⟨s3, tr3, hexit⟩ := exit_some_ret_false t1 e env s2
    constructor <;>
      simp [TransactionWrapper.call, mkTransaction, withTransactionVal,
        henter, hbody, hexit]

/-- Witness for C7 at concrete inputs. -/
theorem C7_decorator_witness :
    ((TransactionWrapper.mk "default" none).call
        (PyFunc.mk "payday"
          (fun (_ : Unit) => fun s => (Except.ok (42 : Nat), s, [])))).name =
      "payday" ∧
    (((TransactionWrapper.mk "default" none).call
        (PyFunc.mk "payday"
          (fun (_ : Unit) => fun s => (Except.ok (42 : Nat), s, [])))).run
        () envOk 0 ⟨[], 0, true, true⟩).result = Except.ok (some 42) ∧
    (((TransactionWrapper.mk "default" none).call
        (PyFunc.mk "payday"
          (fun (_ : Unit) => fun s => (Except.ok (42 : Nat), s, [])))).run
        () envOk 0 ⟨[], 0, true, true⟩).alloc = 0 + 1 := by
  have h := C7_decorator (TransactionWrapper.mk "default" none)
    (PyFunc.mk "payday" (fun (_ : Unit) => fun s => (Except.ok (42 : Nat), s, [])))
    () envOk 0 ⟨[], 0, true, true⟩
  exact ⟨h.1,
    ((h.2.2.2.1 42 ⟨[true], 0, true, true⟩ [] rfl).1 false ⟨[], 0, true, true⟩
      [Ev.commit, Ev.leaveTM, Ev.setIsolationAutocommit] rfl).1,
    h.2.2.1⟩

/-! ### C2 -/

/-- The three `GuardOut` bookkeeping fields depend only on the wrapper's
`__enter__`, not on the body or the exit outcome. -/
theorem guardCycle_fields (w : TransactionWrapper) (env : Env) (body : Comp Unit)
    (alloc : Nat) (s : ConnState) :
    (guardCycle w env body alloc s).wrapper = (w.enter alloc s).1 ∧
    (guardCycle w env body alloc s).alloc = (w.enter alloc s).2.1 ∧
    (guardCycle w env body alloc s).scopeUsed =
      ((w.enter alloc s).1.transaction.getD (Transaction.mk w.using_ none 0)) := by
  rcases henter : w.enter alloc s with ⟨w1, alloc1, s1, e1⟩
  rcases hbody : body s1 with ⟨r, s2, e2⟩
  cases r with
  | ok u =>
    rcases hexit : w1.exit none env s2 with ⟨res, s3, e3⟩
    cases res <;> simp [guardCycle, henter, hbody, hexit]
  | error e =>
    rcases hexit : w1.exit (some e) env s2 with ⟨res, s3, e3⟩
    cases res with
    | ret b => cases b <;> simp [guardCycle, henter, hbody, hexit]
    | raised e4 => simp [guardCycle, henter, hbody, hexit]

/-- A wrapper whose `transaction` slot is empty allocates a fresh scope on
`__enter__` and keeps holding it. -/
theorem enter_fresh_scope (w : TransactionWrapper) (alloc : Nat) (s : ConnState)
    (hw : w.transaction = none) :
    (((w.enter alloc s).1).transaction.getD
        (Transaction.mk w.using_ none 0)).scopeId = alloc ∧
    (w.enter alloc s).2.1 = alloc + 1 := by
  cases hm : s.is_managed <;>
    simp [TransactionWrapper.enter, hw, mkTransaction, Transaction.enter, hm]

/-- A wrapper already holding a scope reuses it on `__enter__`: no new scope
is allocated and the held scope's identity is unchanged. -/
theorem enter_reuse_scope (w : TransactionWrapper) (t : Transaction) (alloc : Nat)
    (s : ConnState) (hw : w.transaction = some t) :
    (((w.enter alloc s).1).transaction.getD
        (Transaction.mk w.using_ none 0)).scopeId = t.scopeId ∧
    (w.enter alloc s).2.1 = alloc := by
  cases hm : s.is_managed <;>
    simp [TransactionWrapper.enter, hw, Transaction.enter, hm]

/-- C2 counterexample: two successive guard-mode enter/exit cycles on the same
factory instance operate on the *same* scope — the second cycle's scope has
the same allocation identity as the first's, and no new scope is allocated —
refuting "each logical transaction attempt operates on a scope that no
earlier attempt used". -/
theorem C2_guard_reuse_counterexample :
    (let c1 := guardCycle (TransactionWrapper.mk "default" none) envOk
        (fun s => (Except.ok (), s, [])) 0 ⟨[], 0, true, true⟩
     let c2 := guardCycle c1.wrapper envOk
        (fun s => (Except.ok (), s, [])) c1.alloc c1.state
     c1.scopeUsed.scopeId = 0 ∧ c2.scopeUsed.scopeId = 0 ∧
       c1.alloc = 1 ∧ c2.alloc = 1) := by
  decide

/-- C2 amended: a `_Transaction` is created at guard *first*-entry or at each
decorator invocation.  In decorator mode every invocation uses a brand-new
scope (fresh identity, allocation counter advanced), never reused across
calls; in guard mode the factory creates the scope on the first enter only
and every subsequent enter/exit cycle on the same factory instance reuses
that same scope, with no new allocation. -/
theorem C2_scope_lifecycle {α β : Type} (w : TransactionWrapper) (f : PyFunc α β)
    (a : α) (env : Env) (alloc : Nat) (s : ConnState) (body : Comp Unit) :
    (((w.call f).run a env alloc s).scopeUsed.scopeId = alloc ∧
      ((w.call f).run a env alloc s).alloc = alloc + 1) ∧
    (w.transaction = none →
      (guardCycle w env body alloc s).scopeUsed.scopeId = alloc ∧
      (guardCycle w env body alloc s).alloc = alloc + 1) ∧
    (∀ t, w.transaction = some t →
      (guardCycle w env body alloc s).scopeUsed.scopeId = t.scopeId ∧
      (guardCycle w env body alloc s).alloc = alloc) := by
  refine ⟨⟨rfl, rfl⟩, ?_, ?_⟩
  · intro hw
    obtain ⟨h1, h2, h3⟩ := guardCycle_fields w env body alloc s
    obtain ⟨g1, g2⟩ := enter_fresh_scope w alloc s hw
    exact ⟨by rw [h3]; exact g1, by rw [h2]; exact g2⟩
  · intro t hw
    obtain ⟨h1, h2, h3⟩ := guardCycle_fields w env body alloc s
    obtain ⟨g1, g2⟩ := enter_reuse_scope w t alloc s hw
    exact ⟨by rw [h3]; exact g1, by rw [h2]; exact g2⟩

/-- Witness for the amended C2 at concrete inputs. -/
theorem C2_scope_lifecycle_witness :
    (guardCycle (TransactionWrapper.mk "default" none) envOk
        (fun s => (Except.ok (), s, [])) 5 ⟨[], 0, true, true⟩).scopeUsed.scopeId = 5 ∧
    (guardCycle (TransactionWrapper.mk "default"
          (some (Transaction.mk "default" none 3))) envOk
        (fun s => (Except.ok (), s, [])) 9 ⟨[], 0, true, true⟩).alloc = 9 :=
  ⟨((C2_scope_lifecycle (TransactionWrapper.mk "default" none)
      (PyFunc.mk "f" (fun (_ : Unit) => fun s => (Except.ok (0 : Nat), s, [])))
      () envOk 5 ⟨[], 0, true, true⟩ (fun s => (Except.ok (), s, []))).2.1 rfl).1,
   ((C2_scope_lifecycle (TransactionWrapper.mk "default"
        (some (Transaction.mk "default" none 3)))
      (PyFunc.mk "f" (fun (_ : Unit) => fun s => (Except.ok (0 : Nat), s, [])))
      () envOk 9 ⟨[], 0, true, true⟩ (fun s => (Except.ok (), s, []))).2.2
      (Transaction.mk "default" none 3) rfl).2⟩

end TransactionUtils
